import Mathlib

/-!
Shallow embedding of the ZeroconfScan mDNS sniffer's DNS wire-format decoder
(src/DNS.go) and the family-agnostic capture loop (src/scan.go, msg_loop).

Byte buffers are `List Nat` (each entry a byte value).  Go strings produced by
the decoder are byte lists; `strings.Join` is `goJoin`.  Go panics (index out
of range, slice out of range) are modelled by an explicit `panic` constructor
of each result type.  The recursion of `parse_labels` is not structurally
terminating on adversarial buffers, so every parsing function is indexed by a
fuel parameter: a `none` result means the fuel ran out, i.e. the Go original
would still be running after that many loop iterations / recursive calls.
-/

abbrev Bytes := List Nat

/-- Go `binary.BigEndian.Uint16` on two bytes. -/
def u16 (hi lo : Nat) : Nat := hi * 256 + lo

/-- Go `binary.BigEndian.Uint32` on four bytes. -/
def u32 (b0 b1 b2 b3 : Nat) : Nat := ((b0 * 256 + b1) * 256 + b2) * 256 + b3

/-- Go slice expression `b[lo:hi]` (contents; bounds are checked at use sites). -/
def goSlice (b : Bytes) (lo hi : Nat) : Bytes := (b.take hi).drop lo

/-- Go `strings.Join(l, sep)` over byte-list strings. -/
def goJoin (sep : Bytes) : List Bytes → Bytes
  | [] => []
  | [x] => x
  | x :: y :: ys => x ++ sep ++ goJoin sep (y :: ys)

/-- Result of `parse_labels`: a Go panic, or the returned `(int, []string)`. -/
inductive LabelsRes where
  | panic : LabelsRes
  | ok (next : Nat) (labels : List Bytes) : LabelsRes
deriving DecidableEq, Repr

/-- The `for {}` loop body of `parse_labels` (src/DNS.go lines 168-193), with
the loop variable `results` made an explicit accumulator and a fuel parameter
consumed at every loop iteration and every recursive pointer-following call.
`i` is the read position, `max_i` the section bound (`-1` disables it),
`allow_ptr` enables compression-pointer following. -/
def parse_labels_go : Nat → List Bytes → Nat → Int → Bytes → Bool → Option LabelsRes
  | 0, _, _, _, _, _ => none
  | fuel + 1, results, i, max_i, b, allow_ptr =>
    if 0 < max_i ∧ max_i ≤ (i : Int) then
      some (.ok (max_i.toNat + 1) results)
    else
      match b.get? i with
      | none => some .panic
      | some c =>
        if allow_ptr ∧ c &&& 0xc0 = 0xc0 then
          match b.get? (i + 1) with
          | none => some .panic
          | some c1 =>
            match parse_labels_go fuel [] (u16 c c1 &&& 0x3FFF) max_i b allow_ptr with
            | none => none
            | some .panic => some .panic
            | some (.ok _ new_results) => some (.ok (i + 2) (results ++ new_results))
        else
          if c = 0 then
            some (.ok (i + 1) results)
          else if i + 1 + c ≤ b.length then
            parse_labels_go fuel (results ++ [goSlice b (i + 1) (i + 1 + c)]) (i + 1 + c) max_i b allow_ptr
          else
            some .panic

/-- Function `parse_labels(i, max_i, b, allow_ptr)` of src/DNS.go: starts the loop with
an empty `results` slice. -/
def parse_labels (fuel : Nat) (i : Nat) (max_i : Int) (b : Bytes) (allow_ptr : Bool) :
    Option LabelsRes :=
  parse_labels_go fuel [] i max_i b allow_ptr

/-- Struct `DNSRRHeader` of src/DNS.go; `Name` is the dot-joined label string.
The Go field `Type` is spelled `rtype` here because `Type` is a Lean
keyword. -/
structure DNSRRHeader where
  Name : Bytes
  rtype : Nat
  Class : Nat
deriving DecidableEq, Repr

/-- Result of `DNSRRHeader.FromBytes`: panic or `(next index, header)`. -/
inductive HdrRes where
  | panic : HdrRes
  | ok (next : Nat) (h : DNSRRHeader) : HdrRes
deriving DecidableEq, Repr

/-- Method `DNSRRHeader.FromBytes(i, b)` (src/DNS.go lines 203-216): name via
`parse_labels(i, -1, b, true)` joined with `"."`, then big-endian 16-bit
`Type` and `Class`.  The two `Uint16` reads panic on a short buffer. -/
def hdr_FromBytes (fuel : Nat) (i : Nat) (b : Bytes) : Option HdrRes :=
  match parse_labels fuel i (-1) b true with
  | none => none
  | some .panic => some .panic
  | some (.ok i1 l) =>
    match b.get? i1, b.get? (i1 + 1), b.get? (i1 + 2), b.get? (i1 + 3) with
    | some t0, some t1, some c0, some c1 =>
      some (.ok (i1 + 4) ⟨goJoin [46] l, u16 t0 t1, u16 c0 c1⟩)
    | _, _, _, _ => some .panic

/-- The `Payload interface{}` of a `DNSRR`: one of the five typed payload
structs of src/DNS.go, or `nil` (constructor `none`) when the record type is
none of `A`, `PTR`, `TXT`, `AAAA`, `SRV`. -/
inductive DNSPayload where
  | none : DNSPayload
  | a (b0 b1 b2 b3 : Nat) : DNSPayload
  | ptr (text : Bytes) : DNSPayload
  | txt (text : Bytes) : DNSPayload
  | aaaa (ip : Bytes) : DNSPayload
  | srv (priority weight port : Nat) (text : Bytes) : DNSPayload
deriving DecidableEq, Repr

/-- Struct `DNSRR` of src/DNS.go. -/
structure DNSRR where
  Header : DNSRRHeader
  TTL : Nat
  Payload : DNSPayload
  raw_payload : Bytes
deriving DecidableEq, Repr

/-- Result of the part of `DNSRR.FromBytes` before the type dispatch:
panic, or header, TTL, the offset where rdata starts, and the declared
rdata length. -/
inductive RRPrefixRes where
  | panic : RRPrefixRes
  | ok (h : DNSRRHeader) (ttl : Nat) (rdata_start : Nat) (rdlen : Nat) : RRPrefixRes
deriving DecidableEq, Repr

/-- The straight-line prefix of `DNSRR.FromBytes` (src/DNS.go lines 230-236):
record header, 4-byte big-endian TTL, 2-byte big-endian rdata length. -/
def rr_frame (fuel : Nat) (i : Nat) (b : Bytes) : Option RRPrefixRes :=
  match hdr_FromBytes fuel i b with
  | none => none
  | some .panic => some .panic
  | some (.ok i1 h) =>
    match b.get? i1, b.get? (i1 + 1), b.get? (i1 + 2), b.get? (i1 + 3),
          b.get? (i1 + 4), b.get? (i1 + 5) with
    | some x0, some x1, some x2, some x3, some r0, some r1 =>
      some (.ok h (u32 x0 x1 x2 x3) (i1 + 6) (u16 r0 r1))
    | _, _, _, _, _, _ => some .panic

/-- Result of `DNSRR.FromBytes`: panic or `(next index, record)`. -/
inductive RRRes where
  | panic : RRRes
  | ok (next : Nat) (rr : DNSRR) : RRRes
deriving DecidableEq, Repr

/-- Method `DNSRR.FromBytes(i, b)` (src/DNS.go lines 229-278).  After the prefix,
`raw_payload = b[i:i+rdlen]` (panics past the buffer end), then the
`switch rr.Header.Type` dispatch (numeric cases `A=1`, `PTR=12`, `TXT=16`,
`AAAA=28`, `SRV=33`; any other type leaves `Payload` nil), and finally
`i += rdlen` is returned. -/
def rr_FromBytes (fuel : Nat) (i : Nat) (b : Bytes) : Option RRRes :=
  match rr_frame fuel i b with
  | none => none
  | some .panic => some .panic
  | some (.ok h ttl i2 rdlen) =>
    if i2 + rdlen ≤ b.length then
      let raw := goSlice b i2 (i2 + rdlen)
      if h.rtype = 1 then
        match b.get? i2, b.get? (i2 + 1), b.get? (i2 + 2), b.get? (i2 + 3) with
        | some a0, some a1, some a2, some a3 =>
          some (.ok (i2 + rdlen) ⟨h, ttl, .a a0 a1 a2 a3, raw⟩)
        | _, _, _, _ => some .panic
      else if h.rtype = 12 then
        match parse_labels fuel i2 ((i2 : Int) + rdlen) b true with
        | none => none
        | some .panic => some .panic
        | some (.ok _ l) => some (.ok (i2 + rdlen) ⟨h, ttl, .ptr (goJoin [46] l), raw⟩)
      else if h.rtype = 16 then
        match parse_labels fuel i2 ((i2 : Int) + rdlen) b false with
        | none => none
        | some .panic => some .panic
        | some (.ok _ l) => some (.ok (i2 + rdlen) ⟨h, ttl, .txt (goJoin [32] l), raw⟩)
      else if h.rtype = 28 then
        if i2 + 16 ≤ b.length then
          some (.ok (i2 + rdlen) ⟨h, ttl, .aaaa (goSlice b i2 (i2 + 16)), raw⟩)
        else
          some .panic
      else if h.rtype = 33 then
        match parse_labels fuel (i2 + 6) ((i2 : Int) + rdlen) b true with
        | none => none
        | some .panic => some .panic
        | some (.ok _ l) =>
          match b.get? i2, b.get? (i2 + 1), b.get? (i2 + 2), b.get? (i2 + 3),
                b.get? (i2 + 4), b.get? (i2 + 5) with
          | some p0, some p1, some w0, some w1, some q0, some q1 =>
            some (.ok (i2 + rdlen)
              ⟨h, ttl, .srv (u16 p0 p1) (u16 w0 w1) (u16 q0 q1) (goJoin [32] l), raw⟩)
          | _, _, _, _, _, _ => some .panic
      else
        some (.ok (i2 + rdlen) ⟨h, ttl, .none, raw⟩)
    else
      some .panic

/-- Struct `DNSMessageHeader` of src/DNS.go. -/
structure DNSMessageHeader where
  Identification : Nat
  Flags : Nat
  QuestionCount : Nat
  AnswerCount : Nat
  AuthorityCount : Nat
  AdditionalCount : Nat
deriving DecidableEq, Repr

/-- Result of `DNSMessageHeader.FromBytes`: panic or `(next index, header)`. -/
inductive MHdrRes where
  | panic : MHdrRes
  | ok (next : Nat) (h : DNSMessageHeader) : MHdrRes
deriving DecidableEq, Repr

/-- Method `DNSMessageHeader.FromBytes(i, b)` (src/DNS.go lines 321-334): six
big-endian 16-bit reads; panics when fewer than 12 bytes remain. -/
def msghdr_FromBytes (i : Nat) (b : Bytes) : MHdrRes :=
  match b.get? i, b.get? (i + 1), b.get? (i + 2), b.get? (i + 3),
        b.get? (i + 4), b.get? (i + 5), b.get? (i + 6), b.get? (i + 7),
        b.get? (i + 8), b.get? (i + 9), b.get? (i + 10), b.get? (i + 11) with
  | some a0, some a1, some a2, some a3, some a4, some a5,
    some a6, some a7, some a8, some a9, some a10, some a11 =>
    .ok (i + 12) ⟨u16 a0 a1, u16 a2 a3, u16 a4 a5, u16 a6 a7, u16 a8 a9, u16 a10 a11⟩
  | _, _, _, _, _, _, _, _, _, _, _, _ => .panic

/-- Result of the question-section loop: panic or `(next index, headers)`. -/
inductive QsRes where
  | panic : QsRes
  | ok (next : Nat) (qs : List DNSRRHeader) : QsRes
deriving DecidableEq, Repr

/-- The `for j < QuestionCount` loop of `DNSMessage.FromBytes`
(src/DNS.go lines 372-376), appending one decoded `DNSRRHeader` per
iteration. -/
def questions_loop (fuel : Nat) (count : Nat) (i : Nat) (b : Bytes) : Option QsRes :=
  match count with
  | 0 => some (.ok i [])
  | n + 1 =>
    match hdr_FromBytes fuel i b with
    | none => none
    | some .panic => some .panic
    | some (.ok i1 h) =>
      match questions_loop fuel n i1 b with
      | none => none
      | some .panic => some .panic
      | some (.ok i2 hs) => some (.ok i2 (h :: hs))

/-- Result of a resource-record section loop: panic or `(next index, records)`. -/
inductive RRsRes where
  | panic : RRsRes
  | ok (next : Nat) (rrs : List DNSRR) : RRsRes
deriving DecidableEq, Repr

/-- One `for j < count` resource-record loop of `DNSMessage.FromBytes`
(src/DNS.go lines 378-394; the Answer, Authority and Additional loops are
textually identical). -/
def rrs_loop (fuel : Nat) (count : Nat) (i : Nat) (b : Bytes) : Option RRsRes :=
  match count with
  | 0 => some (.ok i [])
  | n + 1 =>
    match rr_FromBytes fuel i b with
    | none => none
    | some .panic => some .panic
    | some (.ok i1 rr) =>
      match rrs_loop fuel n i1 b with
      | none => none
      | some .panic => some .panic
      | some (.ok i2 rrs) => some (.ok i2 (rr :: rrs))

/-- Struct `DNSMessage` of src/DNS.go; `raw_msg` is the copied input buffer. -/
structure DNSMessage where
  Header : DNSMessageHeader
  Question : List DNSRRHeader
  Answer : List DNSRR
  Authority : List DNSRR
  Additional : List DNSRR
  raw_msg : Bytes
deriving DecidableEq, Repr

/-- Result of `DNSMessage.FromBytes`: panic or the decoded message. -/
inductive MsgRes where
  | panic : MsgRes
  | ok (m : DNSMessage) : MsgRes
deriving DecidableEq, Repr

/-- Method `DNSMessage.FromBytes(b)` (src/DNS.go lines 366-395): copy the buffer,
parse the 12-byte header, then one loop per section driven by the header's
count fields.  The Go method returns no error value: it either fills the
message, panics on an out-of-range read, or (via `parse_labels`) fails to
terminate. -/
def msg_FromBytes (fuel : Nat) (b : Bytes) : Option MsgRes :=
  match msghdr_FromBytes 0 b with
  | .panic => some .panic
  | .ok i h =>
    match questions_loop fuel h.QuestionCount i b with
    | none => none
    | some .panic => some .panic
    | some (.ok i1 qs) =>
      match rrs_loop fuel h.AnswerCount i1 b with
      | none => none
      | some .panic => some .panic
      | some (.ok i2 ans) =>
        match rrs_loop fuel h.AuthorityCount i2 b with
        | none => none
        | some .panic => some .panic
        | some (.ok i3 auth) =>
          match rrs_loop fuel h.AdditionalCount i3 b with
          | none => none
          | some .panic => some .panic
          | some (.ok _ add) => some (.ok ⟨h, qs, ans, auth, add, b⟩)

/-- Struct `DNSMsgInfo` of src/scan.go: the event a capture worker sends on its
output channel.  The interface is identified by its index; the peer address
type is abstract. -/
structure DNSMsgInfo (α : Type) where
  iface : Nat
  peer : α
  src : Bytes
  dst : Bytes
  msg : DNSMessage

/-- Outcome of one `ReadFromWrapper` call inside `msg_loop`: a deadline
timeout, any other read error, or a received datagram `(n, peer, ifIndex,
src, dst)`. -/
inductive ReadResult (α : Type) where
  | timeoutErr : ReadResult α
  | otherErr : ReadResult α
  | recv (n : Nat) (peer : α) (idx : Nat) (src dst : Bytes) : ReadResult α

/-- What one iteration of the `for { select {...} }` loop of `msg_loop`
does: return (stop channel fired), loop again producing nothing, call
`log.Fatal`, crash in the decoder, diverge in the decoder, or send a
`DNSMsgInfo` on the output channel. -/
inductive LoopAction (α : Type) where
  | exitLoop : LoopAction α
  | continueLoop : LoopAction α
  | fatal : LoopAction α
  | procPanic : LoopAction α
  | diverge : LoopAction α
  | emit (dnsi : DNSMsgInfo α) : LoopAction α

/-- One iteration of the steady-state loop of `msg_loop` (src/scan.go lines
160-197).  `stopped` tells whether the `select` observed the closed stop
channel; otherwise `r` is the result of the deadline-bounded read.  The Go
predicates `net.IP.IsMulticast`, `net.IP.Equal` and the lookup
`net.InterfaceByIndex` are external library calls, passed in as parameters
`isMulticast`, `ipEqual` and `ifaceByIndex`; `mdns_ip` is `mdns_addr.IP`
and `buf` the receive buffer, of which the first `n` bytes are decoded. -/
def msg_loop_step {α : Type} (fuel : Nat) (isMulticast : Bytes → Bool)
    (ipEqual : Bytes → Bytes → Bool) (ifaceByIndex : Nat → Option Nat)
    (mdns_ip : Bytes) (stopped : Bool) (buf : Bytes) (r : ReadResult α) :
    LoopAction α :=
  if stopped then
    .exitLoop
  else
    match r with
    | .timeoutErr => .continueLoop
    | .otherErr => .fatal
    | .recv n peer idx src dst =>
      if !isMulticast dst || !ipEqual dst mdns_ip then
        .continueLoop
      else
        match ifaceByIndex idx with
        | none => .fatal
        | some ifc =>
          match msg_FromBytes fuel (buf.take n) with
          | none => .diverge
          | some .panic => .procPanic
          | some (.ok m) => .emit ⟨ifc, peer, src, dst, m⟩

/-- A two-byte buffer whose first byte is a compression pointer (top two bits
set) whose 14-bit offset is 0, i.e. a pointer to itself. -/
def selfPtrBuf : Bytes := [0xc0, 0x00]

/-- A 23-byte message: header with `AnswerCount = 1` and the other counts 0,
followed by one answer record with root name, type `A = 1`, class 1, TTL 0
and declared rdata length 0, ending exactly at the buffer end.  The `A`
branch then reads 4 payload bytes past the end of the buffer. -/
def bufTruncA : Bytes := [0,0, 0,0, 0,0, 0,1, 0,0, 0,0, 0, 0,1, 0,1, 0,0,0,0, 0,0]

/-- A single resource record with root name, unrecognized type 999, class 1,
TTL 0 and empty rdata. -/
def bufUnk : Bytes := [0, 3,231, 0,1, 0,0,0,0, 0,0]

/-- A single TXT resource record (root name, type 16, class 1, TTL 0) whose
2-byte rdata is the length-prefixed character string `[65]`. -/
def bufTxt : Bytes := [0, 0,16, 0,1, 0,0,0,0, 0,2, 1,65]

/-- A single SRV resource record (root name, type 33, class 1, TTL 0) whose
8-byte rdata is priority 0, weight 0, port 5, then the length-prefixed
target label `[65]`. -/
def bufSrv : Bytes := [0, 0,33, 0,1, 0,0,0,0, 0,8, 0,0, 0,0, 0,5, 1,65]

/-- The message decoded from twelve zero bytes: all counts zero, all
sections empty. -/
def zmsg : DNSMessage := ⟨⟨0, 0, 0, 0, 0, 0⟩, [], [], [], [], List.replicate 12 0⟩

/-- A concrete multicast test for exercising `msg_loop_step`: accepts
exactly the IPv4 mDNS group address. -/
def wIsM : Bytes → Bool := fun ip => decide (ip = [224, 0, 0, 251])

/-- A concrete IP-equality test for exercising `msg_loop_step`. -/
def wIpEq : Bytes → Bytes → Bool := fun x y => decide (x = y)

/-- The event `msg_loop_step` produces for a 12-zero-byte datagram sent to
the IPv4 mDNS group address from 10.0.0.1 on interface 1. -/
def wDnsi : DNSMsgInfo Unit := ⟨1, (), [10, 0, 0, 1], [224, 0, 0, 251], zmsg⟩

theorem parse_labels_go_selfptr (n : Nat) :
    parse_labels_go n [] 0 (-1) selfPtrBuf true = none := by
  induction n with
  | zero => rfl
  | succ k ih =>
    rw [parse_labels_go]
    simp only [selfPtrBuf, u16]
    norm_num
    rw [show (49152 &&& 16383 : Nat) = 0 from rfl]
    simp only [selfPtrBuf] at ih
    rw [ih]

/-- C1: `parse_labels` is claimed to terminate with a result on every buffer,
including one where a compression pointer points to itself.  On the buffer
`[0xc0, 0x00]` with pointer following enabled and no section bound (the exact
call shape used for record names), the Go function recurses on offset 0
forever: in the fuel-indexed embedding, every fuel amount is exhausted. -/
theorem parse_labels_self_pointer_diverges (fuel : Nat) :
    parse_labels fuel 0 (-1) selfPtrBuf true = none :=
  parse_labels_go_selfptr fuel

/-- C2: `DNSMessage.FromBytes` is claimed to fail with a `MalformedMessage`
error when a fixed-size field read exceeds the buffer.  The Go method has no
error result at all: on the empty buffer the header read panics (index out of
range), modelled by the `panic` outcome, for every fuel amount. -/
theorem msg_FromBytes_empty_buffer_panics (fuel : Nat) :
    msg_FromBytes fuel [] = some MsgRes.panic := rfl

/-- C3: the `A` payload branch of `DNSRR.FromBytes` is claimed to bounds-check
the 4 payload bytes before reading them.  It does not (the source comment
reads `FIX THIS: BOUNDS CHECK`): on `bufTruncA`, whose single A record has
rdata length 0 ending at the buffer end, `net.IPv4(b[i+0],...,b[i+3])` reads
past the end and the decode panics instead of returning a message. -/
theorem msg_FromBytes_A_oob_read_panics (fuel : Nat) :
    msg_FromBytes (fuel + 1) bufTruncA = some MsgRes.panic := by
  rw [show bufTruncA = [0,0, 0,0, 0,0, 0,1, 0,0, 0,0, 0, 0,1, 0,1, 0,0,0,0, 0,0] from rfl]
  rw [msg_FromBytes]
  norm_num [msghdr_FromBytes, u16, questions_loop, rrs_loop, rr_FromBytes,
    rr_frame, hdr_FromBytes, parse_labels, parse_labels_go, u32, goSlice]

/-- C4: for every resource record decoded successfully, the next offset
returned by `DNSRR.FromBytes` is the rdata start plus the declared rdata
length (`i += rdlen` after the type dispatch), regardless of record type and
of how many bytes the type-specific decode consumed. -/
theorem rr_FromBytes_advances_by_rdlen (fuel i : Nat) (b : Bytes) (j : Nat) (rr : DNSRR)
    (hok : rr_FromBytes fuel i b = some (.ok j rr)) :
    ∃ h ttl i2 rdlen, rr_frame fuel i b = some (.ok h ttl i2 rdlen) ∧ j = i2 + rdlen := by
  unfold rr_FromBytes at hok
  cases hpre : rr_frame fuel i b with
  | none => rw [hpre] at hok; simp at hok
  | some pres =>
    cases pres with
    | panic => rw [hpre] at hok; simp at hok
    | ok h ttl i2 rdlen =>
      rw [hpre] at hok
      refine ⟨h, ttl, i2, rdlen, rfl, ?_⟩
      dsimp only [] at hok
      repeat' split at hok
      all_goals (try exact Option.noConfusion hok)
      all_goals (injection hok with hok2)
      all_goals (try exact RRRes.noConfusion hok2)
      all_goals (injection hok2 with hj hrr)
      all_goals omega

/-- Witness for C4: the record in `bufUnk` decodes with next offset 11,
which is its rdata start 11 plus its rdata length 0. -/
theorem rr_FromBytes_advances_by_rdlen_witness :
    ∃ h ttl i2 rdlen, rr_frame 1 0 bufUnk = some (.ok h ttl i2 rdlen) ∧ 11 = i2 + rdlen :=
  rr_FromBytes_advances_by_rdlen 1 0 bufUnk 11 ⟨⟨[], 999, 1⟩, 0, .none, []⟩ (by decide)

theorem questions_loop_length (fuel : Nat) (count : Nat) (i : Nat) (b : Bytes)
    (j : Nat) (qs : List DNSRRHeader)
    (hok : questions_loop fuel count i b = some (.ok j qs)) : qs.length = count := by
  induction count generalizing i j qs with
  | zero =>
    unfold questions_loop at hok
    injection hok with hok2
    injection hok2 with hj hqs
    rw [← hqs]
    rfl
  | succ n ih =>
    unfold questions_loop at hok
    repeat' split at hok
    all_goals (try exact Option.noConfusion hok)
    all_goals (injection hok with hok2)
    all_goals (try exact QsRes.noConfusion hok2)
    all_goals (injection hok2 with hj hqs)
    all_goals rw [← hqs, List.length_cons]
    all_goals (have hlen := ih _ _ _ (by assumption); omega)

theorem rrs_loop_length (fuel : Nat) (count : Nat) (i : Nat) (b : Bytes)
    (j : Nat) (rrs : List DNSRR)
    (hok : rrs_loop fuel count i b = some (.ok j rrs)) : rrs.length = count := by
  induction count generalizing i j rrs with
  | zero =>
    unfold rrs_loop at hok
    injection hok with hok2
    injection hok2 with hj hrrs
    rw [← hrrs]
    rfl
  | succ n ih =>
    unfold rrs_loop at hok
    repeat' split at hok
    all_goals (try exact Option.noConfusion hok)
    all_goals (injection hok with hok2)
    all_goals (try exact RRsRes.noConfusion hok2)
    all_goals (injection hok2 with hj hrrs)
    all_goals rw [← hrrs, List.length_cons]
    all_goals (have hlen := ih _ _ _ (by assumption); omega)

/-- C5: every successfully decoded message has exactly `QuestionCount`
questions, `AnswerCount` answers, `AuthorityCount` authority records and
`AdditionalCount` additional records: each section loop of
`DNSMessage.FromBytes` runs once per counted record and appends exactly one
entry per iteration. -/
theorem msg_FromBytes_section_lengths (fuel : Nat) (b : Bytes) (m : DNSMessage)
    (hok : msg_FromBytes fuel b = some (.ok m)) :
    m.Question.length = m.Header.QuestionCount ∧
    m.Answer.length = m.Header.AnswerCount ∧
    m.Authority.length = m.Header.AuthorityCount ∧
    m.Additional.length = m.Header.AdditionalCount := by
  unfold msg_FromBytes at hok
  repeat' split at hok
  all_goals (try exact Option.noConfusion hok)
  all_goals (injection hok with hok2)
  all_goals (try exact MsgRes.noConfusion hok2)
  all_goals (injection hok2 with hm)
  all_goals rw [← hm]
  exact ⟨questions_loop_length _ _ _ _ _ _ (by assumption),
         rrs_loop_length _ _ _ _ _ _ (by assumption),
         rrs_loop_length _ _ _ _ _ _ (by assumption),
         rrs_loop_length _ _ _ _ _ _ (by assumption)⟩

/-- Witness for C5: the 12-byte all-zero message decodes successfully and all
four sections are empty, matching the four zero count fields. -/
theorem msg_FromBytes_section_lengths_witness :
    zmsg.Question.length = zmsg.Header.QuestionCount ∧
    zmsg.Answer.length = zmsg.Header.AnswerCount ∧
    zmsg.Authority.length = zmsg.Header.AuthorityCount ∧
    zmsg.Additional.length = zmsg.Header.AdditionalCount :=
  msg_FromBytes_section_lengths 1 (List.replicate 12 0) zmsg (by decide)

/-- C6: one loop iteration of `msg_loop` sends a `DNSMsgInfo` on the output
channel only when the received datagram's destination address is multicast
and equal to the configured group address; a successfully received datagram
failing that test makes the loop continue silently — no event, no
`log.Fatal`. -/
theorem msg_loop_step_emits_only_group_traffic {α : Type} (fuel : Nat)
    (isMulticast : Bytes → Bool) (ipEqual : Bytes → Bytes → Bool)
    (ifaceByIndex : Nat → Option Nat) (mdns_ip : Bytes) (stopped : Bool)
    (buf : Bytes) (r : ReadResult α) :
    (∀ dnsi, msg_loop_step fuel isMulticast ipEqual ifaceByIndex mdns_ip stopped buf r =
        .emit dnsi → isMulticast dnsi.dst = true ∧ ipEqual dnsi.dst mdns_ip = true) ∧
    (∀ n peer idx src dst, r = .recv n peer idx src dst → stopped = false →
      ¬(isMulticast dst = true ∧ ipEqual dst mdns_ip = true) →
      msg_loop_step fuel isMulticast ipEqual ifaceByIndex mdns_ip stopped buf r =
        .continueLoop) := by
  constructor
  · intro dnsi hemit
    unfold msg_loop_step at hemit
    repeat' split at hemit
    all_goals (try exact LoopAction.noConfusion hemit)
    all_goals (injection hemit with hd)
    all_goals rw [← hd]
    all_goals (constructor <;> simp_all)
  · intro n peer idx src dst hr hstop hnm
    subst hr
    subst hstop
    cases hM : isMulticast dst with
    | false => simp [msg_loop_step, hM]
    | true =>
      cases hE : ipEqual dst mdns_ip with
      | false => simp [msg_loop_step, hM, hE]
      | true => exact absurd ⟨hM, hE⟩ hnm

/-- Witness for C6: the accepted datagram to 224.0.0.251 produces the emitted
event (and its destination satisfies both filter tests), while an identical
datagram to 1.2.3.4 makes the loop continue with no event. -/
theorem msg_loop_step_emits_only_group_traffic_witness :
    (wIsM wDnsi.dst = true ∧ wIpEq wDnsi.dst [224, 0, 0, 251] = true) ∧
    msg_loop_step 1 wIsM wIpEq (fun _ => some 1) [224, 0, 0, 251] false
      (List.replicate 12 0) (ReadResult.recv 12 () 1 [10, 0, 0, 1] [1, 2, 3, 4]) =
      .continueLoop :=
  ⟨(msg_loop_step_emits_only_group_traffic 1 wIsM wIpEq (fun _ => some 1) [224, 0, 0, 251]
      false (List.replicate 12 0) (.recv 12 () 1 [10, 0, 0, 1] [224, 0, 0, 251])).1 wDnsi rfl,
   (msg_loop_step_emits_only_group_traffic 1 wIsM wIpEq (fun _ => some 1) [224, 0, 0, 251]
      false (List.replicate 12 0) (.recv 12 () 1 [10, 0, 0, 1] [1, 2, 3, 4])).2 12 () 1
      [10, 0, 0, 1] [1, 2, 3, 4] rfl rfl (by decide)⟩

/-- C7: TXT payloads are decoded with pointer following disabled: the
dispatch calls `parse_labels(i, i+rdlen, b, false)` and joins the resulting
strings with a single space (byte 32); and with `allow_ptr = false` a length
byte whose top two bits are set (`0xC0` prefix) is consumed as a literal
string length, never followed as a compression pointer. -/
theorem txt_payload_no_pointer_following :
    (∀ (fuel i : Nat) (b : Bytes) (j : Nat) (rr : DNSRR),
      rr_FromBytes fuel i b = some (.ok j rr) → rr.Header.rtype = 16 →
      ∃ h ttl i2 rdlen nx l,
        rr_frame fuel i b = some (.ok h ttl i2 rdlen) ∧
        parse_labels fuel i2 ((i2 : Int) + rdlen) b false = some (.ok nx l) ∧
        rr.Payload = DNSPayload.txt (goJoin [32] l)) ∧
    (∀ (fuel : Nat) (res : List Bytes) (i : Nat) (max_i : Int) (b : Bytes) (c : Nat),
      b.get? i = some c → c &&& 0xc0 = 0xc0 →
      ¬(0 < max_i ∧ max_i ≤ (i : Int)) →
      parse_labels_go (fuel + 1) res i max_i b false =
        (if i + 1 + c ≤ b.length then
           parse_labels_go fuel (res ++ [goSlice b (i + 1) (i + 1 + c)]) (i + 1 + c) max_i b false
         else some LabelsRes.panic)) := by
  constructor
  · intro fuel i b j rr hok htype
    unfold rr_FromBytes at hok
    cases hpre : rr_frame fuel i b with
    | none => rw [hpre] at hok; simp at hok
    | some pres =>
      cases pres with
      | panic => rw [hpre] at hok; simp at hok
      | ok h ttl i2 rdlen =>
        rw [hpre] at hok
        dsimp only [] at hok
        repeat' split at hok
        all_goals (try exact Option.noConfusion hok)
        all_goals (injection hok with hok2)
        all_goals (try exact RRRes.noConfusion hok2)
        all_goals (injection hok2 with hj hrr)
        all_goals (rw [← hrr] at htype; dsimp only [] at htype)
        all_goals (try simp_all)
        rename_i nx l hlen2 heq
        exact ⟨h, ttl, i2, rdlen, ⟨rfl, rfl, rfl, rfl⟩, nx, l, heq, by rw [← hrr]⟩
  · intro fuel res i max_i b c hget hbits hnb
    have hc0 : c ≠ 0 := by
      intro hc
      rw [hc] at hbits
      exact absurd hbits (by decide)
    rw [parse_labels_go, if_neg hnb, hget]
    dsimp only []
    rw [if_neg (by simp), if_neg hc0]

/-- Witness for C7: the TXT record of `bufTxt` decodes its rdata `[1, 65]`
into the single string `[65]`; and on the buffer `[195, 65]` the `0xC3`
first byte is treated as a literal length 195 with pointer following off. -/
theorem txt_payload_no_pointer_following_witness :
    (∃ h ttl i2 rdlen nx l,
        rr_frame 2 0 bufTxt = some (.ok h ttl i2 rdlen) ∧
        parse_labels 2 i2 ((i2 : Int) + rdlen) bufTxt false = some (.ok nx l) ∧
        (⟨⟨[], 16, 1⟩, 0, DNSPayload.txt [65], [1, 65]⟩ : DNSRR).Payload =
          DNSPayload.txt (goJoin [32] l)) ∧
    parse_labels_go 1 [] 0 (-1) [195, 65] false =
      (if 0 + 1 + 195 ≤ List.length [195, 65] then
         parse_labels_go 0 ([] ++ [goSlice [195, 65] (0 + 1) (0 + 1 + 195)])
           (0 + 1 + 195) (-1) [195, 65] false
       else some LabelsRes.panic) :=
  ⟨txt_payload_no_pointer_following.1 2 0 bufTxt 13
      ⟨⟨[], 16, 1⟩, 0, DNSPayload.txt [65], [1, 65]⟩ (by decide) (by decide),
   txt_payload_no_pointer_following.2 0 [] 0 (-1) [195, 65] 195
      (by decide) (by decide) (by decide)⟩

/-- C8: a resource record whose type is none of the five dispatch cases
decodes without error once its frame (header, TTL, rdata length, rdata
bytes) lies inside the buffer: the `switch` falls through leaving `Payload`
nil (the opaque fallback) and `raw_payload` is exactly the declared-length
rdata slice. -/
theorem rr_FromBytes_unrecognized_fallback (fuel i : Nat) (b : Bytes)
    (h : DNSRRHeader) (ttl i2 rdlen : Nat)
    (hpre : rr_frame fuel i b = some (.ok h ttl i2 rdlen))
    (h1 : h.rtype ≠ 1) (h12 : h.rtype ≠ 12) (h16 : h.rtype ≠ 16)
    (h28 : h.rtype ≠ 28) (h33 : h.rtype ≠ 33)
    (hlen : i2 + rdlen ≤ b.length) :
    rr_FromBytes fuel i b =
      some (.ok (i2 + rdlen) ⟨h, ttl, DNSPayload.none, goSlice b i2 (i2 + rdlen)⟩) ∧
    (goSlice b i2 (i2 + rdlen)).length = rdlen := by
  constructor
  · unfold rr_FromBytes
    rw [hpre]
    dsimp only []
    rw [if_pos hlen, if_neg h1, if_neg h12, if_neg h16, if_neg h28, if_neg h33]
  · simp only [goSlice, List.length_drop, List.length_take]
    omega

/-- Witness for C8: the type-999 record of `bufUnk` decodes to a nil payload
with an empty raw rdata slice of the declared length 0. -/
theorem rr_FromBytes_unrecognized_fallback_witness :
    rr_FromBytes 1 0 bufUnk =
      some (.ok 11 ⟨⟨[], 999, 1⟩, 0, DNSPayload.none, goSlice bufUnk 11 11⟩) ∧
    (goSlice bufUnk 11 11).length = 0 :=
  rr_FromBytes_unrecognized_fallback 1 0 bufUnk ⟨[], 999, 1⟩ 0 11 0 (by decide)
    (by decide) (by decide) (by decide) (by decide) (by decide) (by decide)

/-- Counterexample for C9: the bound is only checked at label starts, so a
label that begins before the bound is read past it.  With bound 2, the two
buffers `[2,65,66,0]` and `[2,65,99,0]` agree on every byte below the bound,
yet `parse_labels` returns different labels — the byte at offset 2, at the
bound, was read into the label — so resolution does read bytes at or beyond
the bound. -/
theorem parse_labels_bound_overread_cex :
    parse_labels 4 0 2 [2, 65, 66, 0] true = some (.ok 3 [[65, 66]]) ∧
    parse_labels 4 0 2 [2, 65, 99, 0] true = some (.ok 3 [[65, 99]]) ∧
    List.take 2 [2, 65, 66, 0] = List.take 2 [2, 65, 99, 0] := by decide

/-- C9 (amended): when the positive section bound has been reached or passed
at a label boundary, `parse_labels` returns immediately with exactly the
labels accumulated so far (and next offset `bound + 1`); bytes beyond the
bound may however still be read by a label or pointer that starts below it. -/
theorem parse_labels_go_bound_stops_at_label_start (fuel : Nat) (res : List Bytes)
    (i : Nat) (max_i : Int) (b : Bytes) (ap : Bool)
    (h0 : 0 < max_i) (hi : max_i ≤ (i : Int)) :
    parse_labels_go (fuel + 1) res i max_i b ap = some (.ok (max_i.toNat + 1) res) := by
  rw [parse_labels_go, if_pos ⟨h0, hi⟩]

/-- Witness for the amended C9: at position 5 with bound 3 the resolver
returns at once with the accumulated label list. -/
theorem parse_labels_go_bound_stops_witness :
    parse_labels_go 1 [[70]] 5 3 [] true = some (.ok 4 [[70]]) :=
  parse_labels_go_bound_stops_at_label_start 0 [[70]] 5 3 [] true (by decide) (by decide)

/-- C10: the target of every decoded SRV payload is the label sequence
parsed at rdata offset +6, joined with a single space (byte 32), unlike
domain names elsewhere: every name produced by `DNSRRHeader.FromBytes`
(question and record names) is joined with a dot (byte 46). -/
theorem srv_target_space_joined :
    (∀ (fuel i : Nat) (b : Bytes) (j : Nat) (rr : DNSRR) (p w q : Nat) (t : Bytes),
      rr_FromBytes fuel i b = some (.ok j rr) → rr.Payload = DNSPayload.srv p w q t →
      ∃ h ttl i2 rdlen nx l,
        rr_frame fuel i b = some (.ok h ttl i2 rdlen) ∧
        parse_labels fuel (i2 + 6) ((i2 : Int) + rdlen) b true = some (.ok nx l) ∧
        t = goJoin [32] l) ∧
    (∀ (fuel i : Nat) (b : Bytes) (j : Nat) (h : DNSRRHeader),
      hdr_FromBytes fuel i b = some (.ok j h) →
      ∃ nx l, parse_labels fuel i (-1) b true = some (.ok nx l) ∧
        h.Name = goJoin [46] l) := by
  constructor
  · intro fuel i b j rr p w q t hok hpay
    unfold rr_FromBytes at hok
    cases hpre : rr_frame fuel i b with
    | none => rw [hpre] at hok; simp at hok
    | some pres =>
      cases pres with
      | panic => rw [hpre] at hok; simp at hok
      | ok h ttl i2 rdlen =>
        rw [hpre] at hok
        dsimp only [] at hok
        repeat' split at hok
        all_goals (try exact Option.noConfusion hok)
        all_goals (injection hok with hok2)
        all_goals (try exact RRRes.noConfusion hok2)
        all_goals (injection hok2 with hj hrr)
        all_goals (rw [← hrr] at hpay; dsimp only [] at hpay)
        all_goals (try simp_all)
        exact ⟨h, ttl, i2, rdlen, ⟨rfl, rfl, rfl, rfl⟩, _, _, by assumption,
          hpay.2.2.2.symm⟩
  · intro fuel i b j h hok
    unfold hdr_FromBytes at hok
    cases hpl : parse_labels fuel i (-1) b true with
    | none => rw [hpl] at hok; simp at hok
    | some r =>
      rw [hpl] at hok
      cases r with
      | panic => injection hok with hok2; exact HdrRes.noConfusion hok2
      | ok i1 l =>
        dsimp only [] at hok
        repeat' split at hok
        all_goals (injection hok with hok2)
        all_goals (try exact HdrRes.noConfusion hok2)
        injection hok2 with hj hh
        exact ⟨i1, l, rfl, by rw [← hh]⟩

/-- Witness for C10: the SRV record of `bufSrv` has target `[65]`, the
space-join of its single label, and the name of the same record's header is
the dot-join of its (empty) label list. -/
theorem srv_target_space_joined_witness :
    (∃ h ttl i2 rdlen nx l,
        rr_frame 2 0 bufSrv = some (.ok h ttl i2 rdlen) ∧
        parse_labels 2 (i2 + 6) ((i2 : Int) + rdlen) bufSrv true = some (.ok nx l) ∧
        [65] = goJoin [32] l) ∧
    (∃ nx l, parse_labels 2 0 (-1) bufSrv true = some (.ok nx l) ∧
        (⟨[], 33, 1⟩ : DNSRRHeader).Name = goJoin [46] l) :=
  ⟨srv_target_space_joined.1 2 0 bufSrv 19
      ⟨⟨[], 33, 1⟩, 0, DNSPayload.srv 0 0 5 [65], [0, 0, 0, 0, 0, 5, 1, 65]⟩ 0 0 5 [65]
      (by decide) (by decide),
   srv_target_space_joined.2 2 0 bufSrv 5 ⟨[], 33, 1⟩ (by decide)⟩
